import Mathlib

/-!
Verification development for the `sum-like-it` extraction library
(`src/lib/youtube-likes.ts`).  The TypeScript module is shallowly embedded:
strings are Lean `String`s (lists of characters), JavaScript numbers produced
by the library are `Nat`s (every count the library builds is a non-negative
integer), the ambient `window` blobs and the DOM are explicit inputs, the
current time is an explicit `now : Nat` argument, and code that can throw is
modelled in `Except String`.
-/

namespace SumLikeIt

/-! ## Character-list utilities (models of the JS string primitives used) -/

/-- `startsWithC pat s` : `s` begins with `pat` (model of anchored matching). -/
def startsWithC : List Char → List Char → Bool
  | [], _ => true
  | _ :: _, [] => false
  | p :: ps, c :: cs => p == c && startsWithC ps cs

/-- `hasSub s pat` : `pat` occurs contiguously inside `s`
(model of JS `String.prototype.includes`). -/
def hasSub : List Char → List Char → Bool
  | [], pat => pat.isEmpty
  | c :: cs, pat => startsWithC pat (c :: cs) || hasSub cs pat

/-- Replace the first occurrence of `pat` in `s` by `repl`
(model of JS `String.prototype.replace` with a plain-string pattern). -/
def replaceFirstC (s pat repl : List Char) : List Char :=
  match s with
  | [] => if pat.isEmpty then repl else []
  | c :: cs =>
    if startsWithC pat (c :: cs) then repl ++ (c :: cs).drop pat.length
    else c :: replaceFirstC cs pat repl

/-- Model of JS `String.prototype.includes` on `String`. -/
def jsIncludes (s pat : String) : Bool := hasSub s.data pat.data

/-- Model of JS `String.prototype.toLowerCase` on the character list. -/
def toLowerC (cs : List Char) : List Char := cs.map Char.toLower

/-- The whitespace characters relevant to trimming. -/
def jsWhitespace (c : Char) : Bool :=
  c == ' ' || c == '\t' || c == '\n' || c == '\r' || c == '\x0c'

/-- Model of JS `String.prototype.trim`. -/
def jsTrim (s : String) : String :=
  String.mk (((s.data.dropWhile jsWhitespace).reverse.dropWhile jsWhitespace).reverse)

/-- Model of JS `String.prototype.replace` (first occurrence) on `String`. -/
def jsReplaceFirst (s pat repl : String) : String :=
  String.mk (replaceFirstC s.data pat.data repl.data)

/-! ## Models of the JS numeric primitives -/

/-- Decimal digits to a natural number. -/
def digitsToNat (ds : List Char) : Nat :=
  ds.foldl (fun a c => a * 10 + (c.toNat - 48)) 0

/-- Model of JS `parseFloat`, restricted to the inputs this library feeds it:
text already stripped to `[A-Za-z0-9_.]`, hence sign-free; exponent forms are
not modelled.  `none` models `NaN`; exact rational arithmetic models the
floating-point value (every concrete count below is far from a rounding
boundary, so the distinction is not observable through `Math.round`). -/
def jsParseFloat (cs : List Char) : Option Rat :=
  let intPart := cs.takeWhile Char.isDigit
  let rest := cs.drop intPart.length
  let fracPart := match rest with
    | '.' :: r => r.takeWhile Char.isDigit
    | _ => []
  if intPart.isEmpty && fracPart.isEmpty then none
  else some ((digitsToNat intPart : Rat) + (digitsToNat fracPart : Rat) / ((10 : Rat) ^ fracPart.length))

/-- Model of JS `parseInt(s, 10)` on sign-free input: the longest leading run
of decimal digits, `none` for `NaN`. -/
def jsParseInt (cs : List Char) : Option Nat :=
  let ds := cs.takeWhile Char.isDigit
  if ds.isEmpty then none else some (digitsToNat ds)

/-- Model of JS `Math.round` (round half toward positive infinity). -/
def jsRound (q : Rat) : Int := (q + 1/2).floor

/-- A `\w` character or a dot: what `text.replace(/[^\w.]/g, '')` keeps. -/
def isWordOrDot (c : Char) : Bool := c.isAlphanum || c == '_' || c == '.'

/-! ## `parseLikeCountText` (source lines 272-292) -/

/-- Embedding of `parseLikeCountText`: strip everything but `\w` and `.`,
then interpret a trailing-insensitive `K`/`M`/`B` suffix or a plain integer. -/
def parseLikeCountText (text : String) : Nat :=
  let cleanText := text.data.filter isWordOrDot
  if hasSub cleanText ['K'] then
    match jsParseFloat (replaceFirstC cleanText ['K'] []) with
    | none => 0
    | some num => (jsRound (num * 1000)).toNat
  else if hasSub cleanText ['M'] then
    match jsParseFloat (replaceFirstC cleanText ['M'] []) with
    | none => 0
    | some num => (jsRound (num * 1000000)).toNat
  else if hasSub cleanText ['B'] then
    match jsParseFloat (replaceFirstC cleanText ['B'] []) with
    | none => 0
    | some num => (jsRound (num * 1000000000)).toNat
  else
    match jsParseInt cleanText with
    | none => 0
    | some number => number

/-! ## `extractVideoId` (source lines 294-297)

The regex `(?:youtube\.com\/watch\?v=|youtu\.be\/)([^&\n?#]+)` is embedded as
a leftmost scan that, at each position, tries the first alternative then the
second, capturing the maximal non-empty run of characters outside `&\n?#`. -/

/-- A character that terminates the captured video id. -/
def videoIdStop (c : Char) : Bool := c == '&' || c == '\n' || c == '?' || c == '#'

def watchMarker : List Char := "youtube.com/watch?v=".data

def shortMarker : List Char := "youtu.be/".data

/-- Try one regex alternative anchored at the head of `cs`. -/
def tryMarker (m cs : List Char) : Option (List Char) :=
  if startsWithC m cs then
    let cap := (cs.drop m.length).takeWhile (fun c => !videoIdStop c)
    if cap.isEmpty then none else some cap
  else none

/-- Leftmost unanchored scan of the two alternatives. -/
def scanVideoId : List Char → Option (List Char)
  | [] => none
  | c :: rest =>
    match tryMarker watchMarker (c :: rest) with
    | some cap => some cap
    | none =>
      match tryMarker shortMarker (c :: rest) with
      | some cap => some cap
      | none => scanVideoId rest

/-- Embedding of `extractVideoId`. -/
def extractVideoId (url : String) : Option String :=
  (scanVideoId url.data).map String.mk

/-! ## URL model and `extractChannelId` (source lines 299-317) -/

structure URLParts where
  scheme : String
  host : String
  pathname : String
deriving Repr, DecidableEq

/-- Model of the platform `new URL(url)` constructor, restricted to
hierarchical `scheme://host/path?query#fragment` addresses: a non-empty
alphabetic scheme, `"://"`, a non-empty host, then the pathname up to the
first `?` or `#` (defaulting to `"/"`).  `none` models the constructor
throwing a `TypeError` with message `"Invalid URL"`. -/
def parseURL (url : String) : Option URLParts :=
  let cs := url.data
  let scheme := cs.takeWhile Char.isAlpha
  let rest := cs.drop scheme.length
  if scheme.isEmpty then none
  else if startsWithC "://".data rest then
    let rest2 := rest.drop 3
    let host := rest2.takeWhile fun c => !(c == '/' || c == '?' || c == '#')
    if host.isEmpty then none
    else
      let after := rest2.drop host.length
      let path := after.takeWhile fun c => !(c == '?' || c == '#')
      some ⟨String.mk scheme, String.mk host, if path.isEmpty then "/" else String.mk path⟩
  else none

/-- One anchored pattern `^\/<pre>([^\/]+)` from `extractChannelId`'s list. -/
def channelPattern (pre cs : List Char) : Option (List Char) :=
  if startsWithC pre cs then
    let cap := (cs.drop pre.length).takeWhile fun c => !(c == '/')
    if cap.isEmpty then none else some cap
  else none

/-- The three patterns tried in order by `extractChannelId`. -/
def channelPatterns : List (List Char) := ["/channel/".data, "/c/".data, "/@".data]

/-- Embedding of `extractChannelId`.  `new URL(url)` throwing is modelled by
`Except.error`; the pattern loop returns the first capture. -/
def extractChannelId (url : String) : Except String (Option String) :=
  match parseURL url with
  | none => Except.error "Invalid URL"
  | some urlObj =>
    Except.ok ((channelPatterns.findSome? fun pat => channelPattern pat urlObj.pathname.data).map String.mk)

/-! ## Dynamically-typed state blobs

The ambient `window.ytInitialData` / `window.ytcfg` / `window.ytInitialPlayerResponse`
values are schema-less nested objects; they are modelled as a recursive value
type, and JS optional chaining as `Option.bind` over field lookup. -/

inductive JsonVal where
  | str (s : String)
  | num (n : Int)
  | jbool (b : Bool)
  | jnull
  | obj (fields : List (String × JsonVal))
  | arr (items : List JsonVal)
deriving Repr, BEq

/-- Property access `x?.k`. -/
def jget (j : JsonVal) (k : String) : Option JsonVal :=
  match j with
  | .obj fields => fields.lookup k
  | _ => none

/-- Index access `x?.[i]`. -/
def jidx (j : JsonVal) (i : Nat) : Option JsonVal :=
  match j with
  | .arr items => items.get? i
  | _ => none

/-- An optional-chaining path `x?.k₁?.k₂...`. -/
def jpath (j : JsonVal) (ks : List String) : Option JsonVal :=
  ks.foldl (fun o k => o.bind fun v => jget v k) (some j)

/-- JS truthiness of a blob value. -/
def jsTruthy : JsonVal → Bool
  | .str s => !(s == "")
  | .num n => !(n == 0)
  | .jbool b => b
  | .jnull => false
  | .obj _ => true
  | .arr _ => true

/-! ## Structured-state like-count strategies (source lines 74-174)

These four helpers exist in the source but `extractLikeCount` never calls
them; they are embedded to state what the wired-up locator would have done. -/

/-- Embedding of `extractFromYtInitialData`: the known-shape walk to the like
button's `defaultText.simpleText`. -/
def extractFromYtInitialData (data : JsonVal) : Option Nat :=
  match jpath data ["contents", "twoColumnWatchNextResults", "results", "results", "contents"] with
  | some (.arr contents) =>
    contents.findSome? fun content =>
      match ((jpath content ["videoPrimaryInfoRenderer", "videoActions", "menuRenderer",
          "topLevelButtons"]).bind (jidx · 0)).bind
          (jpath · ["segmentedLikeDislikeButtonRenderer", "likeButton", "toggleButtonRenderer",
            "defaultText", "simpleText"]) with
      | some (.str likeText) =>
        if likeText == "" then none
        else
          let likeCount := parseLikeCountText likeText
          if likeCount > 0 then some likeCount else none
      | _ => none
  | _ => none

mutual

/-- Embedding of the nested `searchForLikeCount` closure inside
`extractFromYtInitialDataAlternative` (source lines 106-127): an unguarded
recursive walk over `Object.entries` looking for a string value under a key
containing `"like"` that parses to a positive count. -/
def searchForLikeCount : JsonVal → Option Nat
  | .obj fields => searchEntries fields
  | .arr items => searchItems items
  | _ => none

/-- `Object.entries` walk over an object's fields, in order. -/
def searchEntries : List (String × JsonVal) → Option Nat
  | [] => none
  | (key, value) :: rest =>
    match (if hasSub (toLowerC key.data) "like".data then
             match value with
             | .str s =>
               let likeCount := parseLikeCountText s
               if likeCount > 0 then some likeCount else none
             | _ => none
           else none) with
    | some n => some n
    | none =>
      match searchForLikeCount value with
      | some n => some n
      | none => searchEntries rest

/-- `Object.entries` walk over an array's items (index keys never contain
`"like"`). -/
def searchItems : List JsonVal → Option Nat
  | [] => none
  | v :: rest =>
    match searchForLikeCount v with
    | some n => some n
    | none => searchItems rest

end

/-- Embedding of `extractFromYtInitialDataAlternative` (source lines 100-137). -/
def extractFromYtInitialDataAlternative (data : JsonVal) : Option Nat :=
  searchForLikeCount data

/-- Embedding of `extractFromYtcfg` (source lines 139-154).  A `parseInt`
result that would be `NaN`, and a count field that is neither a string nor a
number, are modelled as `none`. -/
def extractFromYtcfg (cfg : JsonVal) : Option Nat :=
  match jget cfg "data_" with
  | some data =>
    if jsTruthy data then
      let likeCount :=
        match jget data "likeCount" with
        | some v => if jsTruthy v then some v else (jget data "videoDetails").bind (jget · "likeCount")
        | none => (jget data "videoDetails").bind (jget · "likeCount")
      match likeCount with
      | some v =>
        if jsTruthy v then
          match v with
          | .str s => jsParseInt s.data
          | .num n => some n.toNat
          | _ => none
        else none
      | none => none
    else none
  | none => none

/-- Embedding of `extractFromPlayerResponse` (source lines 156-174). -/
def extractFromPlayerResponse (response : JsonVal) : Option (Nat × Option String) :=
  match jget response "videoDetails" with
  | some videoDetails =>
    if jsTruthy videoDetails then
      let channelName := (jget videoDetails "author").bind fun a =>
        match a with | .str s => some s | _ => none
      match jget videoDetails "likeCount" with
      | some v =>
        if jsTruthy v then
          match v with
          | .str s => (jsParseInt s.data).map (fun n => (n, channelName))
          | .num n => some (n.toNat, channelName)
          | _ => none
        else none
      | none => none
    else none
  | none => none

/-! ## DOM model

An element is a tag, an attribute list, its own text and its child elements;
`textContent` concatenates the subtree's text.  `querySelectorAll` is modelled
for the selector forms the source uses: tag names, `[k="v"]`, `[k*="v"]`,
`#id`, descendant chains, and comma-separated lists, returning matches in
document (preorder) order. -/

inductive Elem where
  | mk (tag : String) (attrs : List (String × String)) (ownText : String) (children : List Elem)
deriving Repr

def Elem.tag : Elem → String
  | .mk t _ _ _ => t

def Elem.attrs : Elem → List (String × String)
  | .mk _ a _ _ => a

def Elem.children : Elem → List Elem
  | .mk _ _ _ cs => cs

/-- `getAttribute`. -/
def Elem.getAttr (e : Elem) (k : String) : Option String := e.attrs.lookup k

mutual

/-- `textContent` of an element. -/
def textContent : Elem → String
  | .mk _ _ ownText children => ownText ++ textList children

def textList : List Elem → String
  | [] => ""
  | c :: rest => textContent c ++ textList rest

end

mutual

/-- Preorder traversal pairing every element with its ancestor chain
(nearest ancestor first). -/
def collectElems (ancRev : List Elem) : Elem → List (List Elem × Elem)
  | .mk t a s cs => (ancRev, .mk t a s cs) :: collectChildren (Elem.mk t a s cs :: ancRev) cs

def collectChildren (ancRev : List Elem) : List Elem → List (List Elem × Elem)
  | [] => []
  | c :: rest => collectElems ancRev c ++ collectChildren ancRev rest

end

structure Document where
  root : Elem
  title : String
deriving Repr

inductive SimpleSel where
  | tagSel (t : String)
  | attrEq (k v : String)
  | attrHas (k v : String)
  | univ
deriving Repr

def matchesSimple (e : Elem) : SimpleSel → Bool
  | .tagSel t => e.tag == t
  | .attrEq k v => e.getAttr k == some v
  | .attrHas k v =>
    match e.getAttr k with
    | some a => hasSub a.data v.data
    | none => false
  | .univ => true

/-- Match the outer part of a descendant chain (inner-first) against the
ancestor chain (nearest first), skipping ancestors freely. -/
def ancChainHolds : List Elem → List SimpleSel → Bool
  | _, [] => true
  | [], _ :: _ => false
  | a :: as, s :: ss => (matchesSimple a s && ancChainHolds as ss) || ancChainHolds as (s :: ss)

/-- Match one descendant-chain selector (written outermost-first, as in CSS)
against an element with its ancestor chain. -/
def matchesSel (ancRev : List Elem) (e : Elem) (sel : List SimpleSel) : Bool :=
  match sel.reverse with
  | [] => false
  | s :: rest => matchesSimple e s && ancChainHolds ancRev rest

/-- All elements of the document with their ancestor chains, in document order. -/
def allWithAnc (d : Document) : List (List Elem × Elem) := collectElems [] d.root

/-- `document.querySelectorAll` for a comma-separated selector list. -/
def querySelectorAll (d : Document) (sels : List (List SimpleSel)) : List Elem :=
  (allWithAnc d).filterMap fun p => if sels.any (matchesSel p.1 p.2) then some p.2 else none

/-- `element.querySelectorAll('*')`: all proper descendants in document order. -/
def descendants (e : Elem) : List Elem :=
  ((collectElems [] e).map Prod.snd).drop 1

/-- The bare-count pattern `/^[\d.,]+[KMB]?$/`. -/
def isCountChar (c : Char) : Bool := c.isDigit || c == '.' || c == ','

def matchesCountPat (s : String) : Bool :=
  let body := s.data.takeWhile isCountChar
  let rest := s.data.drop body.length
  !body.isEmpty && (rest.isEmpty || rest == ['K'] || rest == ['M'] || rest == ['B'])

/-! ## `extractLikeCountFromDOM` (source lines 176-269) -/

def likeAriaSels : List (List SimpleSel) :=
  [[.attrHas "aria-label" "like"], [.attrHas "aria-label" "Like"]]

def buttonSels : List (List SimpleSel) :=
  [[.tagSel "button"], [.attrEq "role" "button"]]

/-- Method 1: elements whose `aria-label` mentions like and whose own text is
a bare count. -/
def domMethod1 (document : Document) : Option Nat :=
  (querySelectorAll document likeAriaSels).findSome? fun element =>
    match element.getAttr "aria-label" with
    | some ariaLabel =>
      let text := jsTrim (textContent element)
      if !(text == "") && hasSub (toLowerC ariaLabel.data) "like".data && matchesCountPat text then
        let likeCount := parseLikeCountText text
        if likeCount > 0 then some likeCount else none
      else none
    | none => none

/-- Method 2: the first 20 buttons labelled like, scanning descendants for a
bare count. -/
def domMethod2 (document : Document) : Option Nat :=
  ((querySelectorAll document buttonSels).take 20).findSome? fun button =>
    match button.getAttr "aria-label" with
    | some ariaLabel =>
      if hasSub (toLowerC ariaLabel.data) "like".data then
        (descendants button).findSome? fun child =>
          let childText := jsTrim (textContent child)
          if !(childText == "") && matchesCountPat childText then
            let likeCount := parseLikeCountText childText
            if likeCount > 0 then some likeCount else none
          else none
      else none
    | none => none

/-- Method 3: short bare-count text whose parent's text mentions like/thumb;
only the first 5 candidates are parsed. -/
def domMethod3 (document : Document) : Option Nat :=
  let potential := (allWithAnc document).filterMap fun p =>
    let text := jsTrim (textContent p.2)
    if !(text == "") && matchesCountPat text && text.length < 10 then
      match p.1 with
      | parent :: _ =>
        let parentText := toLowerC (textContent parent).data
        if hasSub parentText "like".data || hasSub parentText "thumb".data then
          some text
        else none
      | [] => none
    else none
  (potential.take 5).findSome? fun text =>
    let likeCount := parseLikeCountText text
    if likeCount > 0 then some likeCount else none

/-- Embedding of `extractLikeCountFromDOM`: the three DOM methods in order,
`0` when all fail. -/
def extractLikeCountFromDOM (document : Document) : Nat :=
  match domMethod1 document with
  | some n => n
  | none =>
    match domMethod2 document with
    | some n => n
    | none =>
      match domMethod3 document with
      | some n => n
      | none => 0

/-! ## Page representation and the two locators' entry points -/

/-- A loaded page: the document plus the ambient state blobs (absent blobs
are `none`). -/
structure Page where
  document : Document
  ytInitialData : Option JsonVal
  ytcfg : Option JsonVal
  ytInitialPlayerResponse : Option JsonVal

/-- Embedding of `extractLikeCount` (source lines 25-72): it logs diagnostics
about the ambient state and then returns the DOM scrape result; the
structured-state helpers above are defined in the source but never invoked. -/
def extractLikeCount (page : Page) : Nat :=
  extractLikeCountFromDOM page.document

/-- Embedding of `extractChannelNameFromYtInitialData` (source lines 381-395). -/
def extractChannelNameFromYtInitialData (data : JsonVal) : Option String :=
  match jpath data ["contents", "twoColumnWatchNextResults", "results", "results", "contents"] with
  | some (.arr contents) =>
    contents.findSome? fun content =>
      match ((jpath content ["videoSecondaryInfoRenderer", "owner", "videoOwnerRenderer",
          "title", "runs"]).bind (jidx · 0)).bind (jget · "text") with
      | some (.str text) => if text == "" then none else some text
      | _ => none
  | _ => none

/-- The fixed selector list of `extractChannelName`'s DOM fallback. -/
def channelSelectors : List (List SimpleSel) :=
  [[.tagSel "ytd-video-owner-renderer", .tagSel "yt-formatted-string", .tagSel "a"],
   [.tagSel "ytd-channel-name", .tagSel "yt-formatted-string", .tagSel "a"],
   [.tagSel "ytd-video-owner-renderer", .tagSel "yt-formatted-string"],
   [.tagSel "ytd-channel-name", .tagSel "yt-formatted-string"],
   [.tagSel "ytd-video-owner-renderer", .attrEq "id" "channel-name", .tagSel "a"],
   [.tagSel "ytd-video-owner-renderer", .attrEq "id" "channel-name"],
   [.attrEq "id" "owner-name", .tagSel "a"],
   [.attrEq "id" "owner-name"]]

/-- Embedding of `extractChannelName` (source lines 319-379): initial-data
path, then player-response author, then the DOM selector fallback. -/
def extractChannelName (page : Page) : Option String :=
  match page.ytInitialData.bind extractChannelNameFromYtInitialData with
  | some channelName => some channelName
  | none =>
    match page.ytInitialPlayerResponse.bind fun r =>
        (jget r "videoDetails").bind fun vd =>
          match jget vd "author" with
          | some (.str s) => if s == "" then none else some s
          | _ => none with
    | some author => some author
    | none =>
      channelSelectors.findSome? fun selector =>
        (querySelectorAll page.document [selector]).findSome? fun element =>
          let text := jsTrim (textContent element)
          if text == "" then none else some text

/-! ## Data model, `analyzeYouTubePage` and `mergeChannelData` -/

structure VideoData where
  id : String
  title : String
  videoUrl : String
  likeCount : Nat
deriving Repr, DecidableEq

structure ChannelData where
  channelId : String
  channelName : String
  totalLikes : Nat
  videoCount : Nat
  videos : List VideoData
  lastUpdated : Nat
deriving Repr, DecidableEq

structure ExtractionResult where
  success : Bool
  data : Option ChannelData
  error : Option String
deriving Repr, DecidableEq

/-- Embedding of `calculateTotalLikes` (source lines 397-399). -/
def calculateTotalLikes (videos : List VideoData) : Nat :=
  videos.foldl (fun total video => total + video.likeCount) 0

/-- Embedding of `analyzeYouTubePage` (source lines 401-442).  The current
time is the explicit `now`; the `try`/`catch` around the body catches the
`new URL` failure inside `extractChannelId` and surfaces its message. -/
def analyzeYouTubePage (page : Page) (url : String) (now : Nat) : ExtractionResult :=
  match extractVideoId url with
  | none => { success := false, data := none, error := some "Not a video page" }
  | some videoId =>
    let likeCount := extractLikeCount page
    let channelName := extractChannelName page
    match extractChannelId url with
    | .error msg => { success := false, data := none, error := some msg }
    | .ok chan =>
      let channelId := chan.getD videoId
      let videoData : VideoData :=
        { id := videoId
          title := jsReplaceFirst page.document.title " - YouTube" ""
          videoUrl := url
          likeCount := likeCount }
      let channelData : ChannelData :=
        { channelId := channelId
          channelName := channelName.getD "Unknown Channel"
          totalLikes := likeCount
          videoCount := 1
          videos := [videoData]
          lastUpdated := now }
      { success := true, data := some channelData, error := none }

/-- JS `Map.prototype.set`: replace in place when the key is present, append
otherwise. -/
def mapSet (m : List (String × VideoData)) (k : String) (v : VideoData) : List (String × VideoData) :=
  if m.any (fun p => p.1 == k) then
    m.map fun p => if p.1 == k then (k, v) else p
  else m ++ [(k, v)]

/-- Insert a list of videos keyed by id into an insertion-ordered map. -/
def buildMap (init : List (String × VideoData)) (videos : List VideoData) : List (String × VideoData) :=
  videos.foldl (fun m v => mapSet m v.id v) init

/-- Embedding of `mergeChannelData` (source lines 444-461). -/
def mergeChannelData (existingData newData : ChannelData) (now : Nat) : ChannelData :=
  let videoMap := buildMap (buildMap [] existingData.videos) newData.videos
  let allVideos := videoMap.map Prod.snd
  { channelId := existingData.channelId
    channelName := if newData.channelName == "" then existingData.channelName else newData.channelName
    totalLikes := calculateTotalLikes allVideos
    videoCount := allVideos.length
    videos := allVideos
    lastUpdated := now }

/-! ## Spec-side characterizations and invariant predicates -/

/-- The suffix after a captured video id: either the end of the url or a
terminator among `&`, newline, `?`, `#`. -/
def stopAfter (suf : List Char) : Prop :=
  suf = [] ∨ ∃ d ds, suf = d :: ds ∧ videoIdStop d = true

/-- The spec's description of a url containing a canonical video shape for
marker `m`: some occurrence of `m` followed by a non-empty id that runs up to
the first terminator or the end of the string. -/
def VideoIdShape (cs m cap : List Char) : Prop :=
  cap ≠ [] ∧ (∀ c ∈ cap, videoIdStop c = false) ∧
    ∃ pre suf, cs = pre ++ m ++ cap ++ suf ∧ stopAfter suf

/-- The spec's description of `extractChannelId` on a parsed pathname: the
first path segment following one of the prefixes `/channel/`, `/c/`, `/@`, up
to the next `/`; absent when none of the three match. -/
def firstSegmentAfterPrefixes (pathname : String) : Option String :=
  ["/channel/", "/c/", "/@"].findSome? fun pre =>
    if startsWithC pre.data pathname.data then
      let seg := (pathname.data.drop pre.data.length).takeWhile fun c => !(c == '/')
      if seg.isEmpty then none else some (String.mk seg)
    else none

/-- The ChannelAggregate invariants of the spec's data model. -/
def AggInv (d : ChannelData) : Prop :=
  d.totalLikes = (d.videos.map (·.likeCount)).sum ∧
  d.videoCount = d.videos.length ∧
  (d.videos.map (·.id)).Nodup

/-- The pairs of an id-keyed map holding key `k`. -/
def filterKey (m : List (String × VideoData)) (k : String) : List (String × VideoData) :=
  m.filter fun p => p.1 == k

/-- The last video in a list carrying id `k` (the winning write). -/
def lastWith (videos : List VideoData) (k : String) : Option VideoData :=
  (videos.filter fun v => v.id == k).getLast?

/-- Every pair of the map is keyed by its video's id. -/
def KeyedById (m : List (String × VideoData)) : Prop :=
  ∀ p ∈ m, p.1 = p.2.id

/-- A nesting family showing the state walk follows objects to any depth. -/
def deepNest : Nat → JsonVal
  | 0 => .obj [("like", .str "7")]
  | n + 1 => .obj [("a", deepNest n)]

/-! ## Concrete inputs used by the witnesses -/

/-- A document with a single bare root element and empty title. -/
def blankDoc : Document := ⟨Elem.mk "html" [] "" [], ""⟩

/-- A page with no state blobs and the blank document. -/
def blankPage : Page := ⟨blankDoc, none, none, none⟩

/-- An initial-data blob in exactly the known shape that the first
structured-state strategy parses, carrying a rendered like count of `"42"`. -/
def likeButtonBlob : JsonVal :=
  .obj [("contents", .obj [("twoColumnWatchNextResults", .obj [("results", .obj [("results",
    .obj [("contents", .arr [.obj [("videoPrimaryInfoRenderer", .obj [("videoActions",
      .obj [("menuRenderer", .obj [("topLevelButtons", .arr [.obj [("segmentedLikeDislikeButtonRenderer",
        .obj [("likeButton", .obj [("toggleButtonRenderer", .obj [("defaultText",
          .obj [("simpleText", .str "42")])])])])]])])])])]])])])])])]

/-- A stored aggregate holding one video `x` with 5 likes. -/
def exAgg : ChannelData := ⟨"ch", "Old Name", 5, 1, [⟨"x", "t", "u", 5⟩], 0⟩

/-- An incoming aggregate re-observing video `x` with 7 likes and an empty
channel name. -/
def incAgg : ChannelData := ⟨"ch2", "", 7, 1, [⟨"x", "t2", "u2", 7⟩], 1⟩

/-- A well-formed two-video aggregate. -/
def selfAgg : ChannelData := ⟨"ch", "Name", 12, 2, [⟨"x", "t", "u", 5⟩, ⟨"y", "s", "w", 7⟩], 0⟩

/-! ## Lemmas: anchored and unanchored regex scanning -/

theorem startsWithC_iff (pat s : List Char) :
    startsWithC pat s = true ↔ ∃ t, s = pat ++ t := by
  induction pat generalizing s with
  | nil => simp [startsWithC]
  | cons p ps ih =>
    cases s with
    | nil => simp [startsWithC]
    | cons c cs =>
      simp only [startsWithC, Bool.and_eq_true, beq_iff_eq, ih, List.cons_append,
        List.cons.injEq]
      constructor
      · rintro ⟨rfl, t, rfl⟩; exact ⟨t, rfl, rfl⟩
      · rintro ⟨t, rfl, rfl⟩; exact ⟨rfl, t, rfl⟩

theorem dropWhile_shape (p : Char → Bool) (l : List Char) :
    l.dropWhile p = [] ∨ ∃ d ds, l.dropWhile p = d :: ds ∧ p d = false := by
  induction l with
  | nil => left; rfl
  | cons a as ih =>
    by_cases h : p a
    · simpa [List.dropWhile_cons, h] using ih
    · right
      exact ⟨a, as, by simp [List.dropWhile_cons, h], by simpa using h⟩

theorem takeWhile_append_all (p : Char → Bool) (a b : List Char)
    (h : ∀ c ∈ a, p c = true) : (a ++ b).takeWhile p = a ++ b.takeWhile p := by
  induction a with
  | nil => rfl
  | cons x xs ih =>
    have hx : p x = true := h x (by simp)
    simp only [List.cons_append, List.takeWhile_cons_of_pos hx]
    rw [ih fun c hc => h c (by simp [hc])]

theorem tryMarker_some_shape {m cs cap : List Char} (h : tryMarker m cs = some cap) :
    cap ≠ [] ∧ (∀ c ∈ cap, videoIdStop c = false) ∧
      ∃ suf, cs = m ++ cap ++ suf ∧ stopAfter suf := by
  unfold tryMarker at h
  by_cases hs : startsWithC m cs = true
  · rw [if_pos hs] at h
    obtain ⟨t, rfl⟩ := (startsWithC_iff m cs).mp hs
    rw [List.drop_left] at h
    by_cases he : (t.takeWhile fun c => !videoIdStop c).isEmpty
    · rw [if_pos he] at h; cases h
    · rw [if_neg he] at h
      injection h with h
      subst h
      refine ⟨by simpa [List.isEmpty_iff] using he, ?_, t.dropWhile (fun c => !videoIdStop c), ?_, ?_⟩
      · intro c hc
        simpa using List.mem_takeWhile_imp hc
      · rw [List.append_assoc, List.takeWhile_append_dropWhile]
      · rcases dropWhile_shape (fun c => !videoIdStop c) t with h0 | ⟨d, ds, hd, hpd⟩
        · exact Or.inl h0
        · exact Or.inr ⟨d, ds, hd, by simpa using hpd⟩
  · rw [if_neg hs] at h; cases h

theorem tryMarker_complete {m cap suf : List Char} (hne : cap ≠ [])
    (hall : ∀ c ∈ cap, videoIdStop c = false) (hsuf : stopAfter suf) :
    tryMarker m (m ++ (cap ++ suf)) = some cap := by
  unfold tryMarker
  rw [if_pos ((startsWithC_iff m _).mpr ⟨cap ++ suf, rfl⟩), List.drop_left]
  have hcap : (cap ++ suf).takeWhile (fun c => !videoIdStop c) = cap := by
    rw [takeWhile_append_all _ _ _ (fun c hc => by simp [hall c hc])]
    rcases hsuf with rfl | ⟨d, ds, rfl, hd⟩
    · simp
    · rw [List.takeWhile_cons_of_neg (by simp [hd])]; simp
  rw [hcap, if_neg (by simpa [List.isEmpty_iff] using hne)]

theorem scanVideoId_shape {cs v : List Char} (h : scanVideoId cs = some v) :
    VideoIdShape cs watchMarker v ∨ VideoIdShape cs shortMarker v := by
  induction cs with
  | nil => simp [scanVideoId] at h
  | cons c rest ih =>
    rw [scanVideoId] at h
    cases h1 : tryMarker watchMarker (c :: rest) with
    | some cap =>
      rw [h1] at h
      injection h with h; subst h
      obtain ⟨hne, hall, suf, hdec, hstop⟩ := tryMarker_some_shape h1
      exact Or.inl ⟨hne, hall, [], suf, by simpa using hdec, hstop⟩
    | none =>
      rw [h1] at h
      cases h2 : tryMarker shortMarker (c :: rest) with
      | some cap =>
        rw [h2] at h
        injection h with h; subst h
        obtain ⟨hne, hall, suf, hdec, hstop⟩ := tryMarker_some_shape h2
        exact Or.inr ⟨hne, hall, [], suf, by simpa using hdec, hstop⟩
      | none =>
        rw [h2] at h
        rcases ih h with ⟨hne, hall, pre, suf, hdec, hstop⟩ | ⟨hne, hall, pre, suf, hdec, hstop⟩
        · exact Or.inl ⟨hne, hall, c :: pre, suf, by simp [hdec], hstop⟩
        · exact Or.inr ⟨hne, hall, c :: pre, suf, by simp [hdec], hstop⟩

theorem scanVideoId_isSome_of_try {cs : List Char}
    (h : (tryMarker watchMarker cs).isSome ∨ (tryMarker shortMarker cs).isSome) :
    (scanVideoId cs).isSome := by
  cases cs with
  | nil => simp [tryMarker, watchMarker, shortMarker, startsWithC] at h
  | cons c r =>
    rw [scanVideoId]
    cases h1 : tryMarker watchMarker (c :: r) <;>
      cases h2 : tryMarker shortMarker (c :: r) <;> simp_all

theorem scanVideoId_isSome_app (pre m cap suf : List Char)
    (hm : m = watchMarker ∨ m = shortMarker) (hne : cap ≠ [])
    (hall : ∀ c ∈ cap, videoIdStop c = false) (hsuf : stopAfter suf) :
    (scanVideoId (pre ++ m ++ cap ++ suf)).isSome := by
  induction pre with
  | nil =>
    have htry : tryMarker m (m ++ (cap ++ suf)) = some cap := tryMarker_complete hne hall hsuf
    apply scanVideoId_isSome_of_try
    rcases hm with rfl | rfl
    · exact Or.inl (by simp [List.append_assoc, htry])
    · exact Or.inr (by simp [List.append_assoc, htry])
  | cons c pre ih =>
    have hshape : (c :: pre) ++ m ++ cap ++ suf = c :: (pre ++ m ++ cap ++ suf) := by simp
    rw [hshape, scanVideoId]
    cases h1 : tryMarker watchMarker (c :: (pre ++ m ++ cap ++ suf)) with
    | some cap' => simp
    | none =>
      cases h2 : tryMarker shortMarker (c :: (pre ++ m ++ cap ++ suf)) with
      | some cap' => simp
      | none => exact ih

theorem findSome?_channelPattern_eq (pres : List String) (cs : List Char) :
    ((pres.map (fun s => s.data)).findSome? fun pat => channelPattern pat cs).map String.mk =
      pres.findSome? fun pre =>
        if startsWithC pre.data cs then
          (fun seg => if seg.isEmpty then none else some (String.mk seg))
            ((cs.drop pre.data.length).takeWhile fun c => !(c == '/'))
        else none := by
  induction pres with
  | nil => rfl
  | cons p ps ih =>
    simp only [List.map_cons, List.findSome?_cons, channelPattern]
    by_cases h : startsWithC p.data cs
    · simp only [if_pos h]
      by_cases he : ((cs.drop p.data.length).takeWhile fun c => !(c == '/')).isEmpty
      · simp only [if_pos he]; exact ih
      · simp only [if_neg he]; rfl
    · simp only [if_neg h]; exact ih

theorem extractChannelId_parsed {url : String} {u : URLParts} (h : parseURL url = some u) :
    extractChannelId url = .ok (firstSegmentAfterPrefixes u.pathname) := by
  unfold extractChannelId
  rw [h]
  exact congrArg Except.ok (findSome?_channelPattern_eq ["/channel/", "/c/", "/@"] u.pathname.data)

/-- Claim C9: for every url, `extractVideoId` succeeds exactly when the url
contains one of the two canonical shapes `…youtube.com/watch?v=<id>` or
`…youtu.be/<id>` with a non-empty id running up to the first of `&`, newline,
`?`, `#` or the end of the string, and any returned id is such a capture;
and on a url whose structural parse succeeds, `extractChannelId` returns the
first path segment of the pathname after one of the prefixes `/channel/`,
`/c/`, `/@` (up to the next `/`), absent when none of the three match. -/
theorem extractId_characterization (url : String) :
    ((extractVideoId url).isSome ↔
      ∃ cap, VideoIdShape url.data watchMarker cap ∨ VideoIdShape url.data shortMarker cap)
    ∧ (∀ v, extractVideoId url = some v →
      VideoIdShape url.data watchMarker v.data ∨ VideoIdShape url.data shortMarker v.data)
    ∧ (∀ u, parseURL url = some u →
      extractChannelId url = .ok (firstSegmentAfterPrefixes u.pathname)) := by
  have hsound : ∀ v, extractVideoId url = some v →
      VideoIdShape url.data watchMarker v.data ∨ VideoIdShape url.data shortMarker v.data := by
    intro v hv
    unfold extractVideoId at hv
    obtain ⟨l, hl, rfl⟩ := Option.map_eq_some'.mp hv
    exact scanVideoId_shape hl
  refine ⟨⟨?_, ?_⟩, hsound, fun u h => extractChannelId_parsed h⟩
  · intro h
    obtain ⟨v, hv⟩ := Option.isSome_iff_exists.mp h
    exact ⟨v.data, hsound v hv⟩
  · rintro ⟨cap, hc | hc⟩ <;>
      obtain ⟨hne, hall, pre, suf, hdec, hstop⟩ := hc <;>
      · unfold extractVideoId
        rw [Option.isSome_map', hdec]
        exact scanVideoId_isSome_app pre _ cap suf (by simp) hne hall hstop

/-- Witness for C9 at the urls of the spec's test properties. -/
theorem extractId_characterization_witness :
    (VideoIdShape ("https://youtu.be/xyz789").data watchMarker ("xyz789").data ∨
      VideoIdShape ("https://youtu.be/xyz789").data shortMarker ("xyz789").data)
    ∧ extractChannelId "https://www.youtube.com/@somechannel" =
        .ok (firstSegmentAfterPrefixes "/@somechannel") :=
  ⟨(extractId_characterization "https://youtu.be/xyz789").2.1 "xyz789" rfl,
   (extractId_characterization "https://www.youtube.com/@somechannel").2.2
     ⟨"https", "www.youtube.com", "/@somechannel"⟩ rfl⟩

/-! ## Lemmas: the id-keyed video map of `mergeChannelData` -/

theorem buildMap_cons (init : List (String × VideoData)) (v : VideoData) (vs : List VideoData) :
    buildMap init (v :: vs) = buildMap (mapSet init v.id v) vs := rfl

theorem any_key_iff (m : List (String × VideoData)) (k : String) :
    m.any (fun p => p.1 == k) = true ↔ k ∈ m.map Prod.fst := by
  simp only [List.any_eq_true, List.mem_map, beq_iff_eq]

theorem mapSet_of_absent {m : List (String × VideoData)} {k : String} {v : VideoData}
    (h : ¬m.any (fun p => p.1 == k) = true) : mapSet m k v = m ++ [(k, v)] := by
  unfold mapSet; rw [if_neg h]

theorem map_eq_self_of {α : Type} {l : List α} {f : α → α} (h : ∀ a ∈ l, f a = a) :
    l.map f = l := by
  induction l with
  | nil => rfl
  | cons x xs ih => rw [List.map_cons, h x (by simp), ih fun a ha => h a (by simp [ha])]

theorem map_replace_eq_self {l : List (String × VideoData)} {k : String} {v : VideoData}
    (h : k ∉ l.map Prod.fst) :
    l.map (fun p => if p.1 == k then (k, v) else p) = l := by
  apply map_eq_self_of
  intro p hp
  have hk : ¬(p.1 == k) = true := by
    simp only [beq_iff_eq]
    intro he
    exact h (he ▸ List.mem_map_of_mem Prod.fst hp)
  rw [if_neg hk]

theorem mapSet_present_decomp {l1 l2 : List (String × VideoData)} {k : String}
    {q : String × VideoData} (v : VideoData) (hq : q.1 = k)
    (h1 : k ∉ l1.map Prod.fst) (h2 : k ∉ l2.map Prod.fst) :
    mapSet (l1 ++ q :: l2) k v = l1 ++ (k, v) :: l2 := by
  have hany : (l1 ++ q :: l2).any (fun p => p.1 == k) = true :=
    List.any_eq_true.mpr ⟨q, by simp, by simp [hq]⟩
  unfold mapSet
  rw [if_pos hany, List.map_append, List.map_cons, map_replace_eq_self h1,
    map_replace_eq_self h2, if_pos (by simp [hq])]

theorem filter_cons_pos {α : Type} (p : α → Bool) (a : α) (l : List α) (h : p a = true) :
    (a :: l).filter p = a :: l.filter p := List.filter_cons_of_pos h

theorem filter_cons_neg {α : Type} (p : α → Bool) (a : α) (l : List α) (h : ¬p a = true) :
    (a :: l).filter p = l.filter p := List.filter_cons_of_neg (by simpa using h)

theorem filterKey_eq_nil {l : List (String × VideoData)} {k : String}
    (h : k ∉ l.map Prod.fst) : l.filter (fun p => p.1 == k) = [] := by
  rw [List.filter_eq_nil_iff]
  intro p hp
  simp only [beq_iff_eq]
  intro he
  exact h (he ▸ List.mem_map_of_mem Prod.fst hp)

theorem filterKey_mapSet_self {m : List (String × VideoData)} {k : String} (v : VideoData)
    (hnd : (m.map Prod.fst).Nodup) : filterKey (mapSet m k v) k = [(k, v)] := by
  by_cases hin : k ∈ m.map Prod.fst
  · obtain ⟨q, hq, hqk⟩ := List.mem_map.mp hin
    obtain ⟨l1, l2, rfl⟩ := List.append_of_mem hq
    rw [List.map_append, List.map_cons, hqk] at hnd
    have hmid := List.nodup_middle.mp hnd
    rw [List.nodup_cons, List.mem_append] at hmid
    have h1 : k ∉ l1.map Prod.fst := fun hh => hmid.1 (Or.inl hh)
    have h2 : k ∉ l2.map Prod.fst := fun hh => hmid.1 (Or.inr hh)
    rw [mapSet_present_decomp v hqk h1 h2]
    unfold filterKey
    rw [List.filter_append, filter_cons_pos (fun p => p.1 == k) (k, v) l2 (by simp),
      filterKey_eq_nil h1, filterKey_eq_nil h2]
    rfl
  · rw [mapSet_of_absent fun ha => hin ((any_key_iff m k).mp ha)]
    unfold filterKey
    rw [List.filter_append, filterKey_eq_nil hin,
      filter_cons_pos (fun p => p.1 == k) (k, v) [] (by simp)]
    rfl

theorem filterKey_mapSet_other {m : List (String × VideoData)} {k k' : String} (v : VideoData)
    (hne : k' ≠ k) : filterKey (mapSet m k v) k' = filterKey m k' := by
  unfold mapSet filterKey
  by_cases hany : m.any (fun p => p.1 == k) = true
  · rw [if_pos hany, List.filter_map]
    have hcong : ∀ q ∈ m,
        ((fun p => p.1 == k') ∘ fun p => if p.1 == k then (k, v) else p) q = (q.1 == k') := by
      intro q _
      by_cases hk : (q.1 == k) = true
      · have hqk : q.1 = k := by simpa using hk
        simp [Function.comp, hk, hqk, Ne.symm hne]
      · simp [Function.comp, hk]
    rw [List.filter_congr hcong]
    apply map_eq_self_of
    intro p hp
    have : p.1 = k' := by simpa using (List.mem_filter.mp hp).2
    rw [if_neg (by simp [this, hne])]
  · rw [if_neg hany, List.filter_append,
      filter_cons_neg (fun p => p.1 == k') (k, v) [] (by simpa using Ne.symm hne)]
    simp

theorem keysNodup_mapSet {m : List (String × VideoData)} {k : String} {v : VideoData}
    (h : (m.map Prod.fst).Nodup) : ((mapSet m k v).map Prod.fst).Nodup := by
  unfold mapSet
  by_cases hany : m.any (fun p => p.1 == k) = true
  · rw [if_pos hany, List.map_map]
    have heq : m.map (Prod.fst ∘ fun p => if p.1 == k then (k, v) else p) = m.map Prod.fst := by
      apply List.map_congr_left
      intro p _
      by_cases hk : (p.1 == k) = true
      · have : p.1 = k := by simpa using hk
        simp [Function.comp, hk, this]
      · simp [Function.comp, hk]
    rw [heq]; exact h
  · rw [if_neg hany, List.map_append]
    have hk : k ∉ m.map Prod.fst := fun hin => hany ((any_key_iff m k).mpr hin)
    simp [List.nodup_append, h, hk]

theorem keysNodup_buildMap (vids : List VideoData) (m : List (String × VideoData))
    (h : (m.map Prod.fst).Nodup) : ((buildMap m vids).map Prod.fst).Nodup := by
  induction vids generalizing m with
  | nil => exact h
  | cons v vs ih => rw [buildMap_cons]; exact ih _ (keysNodup_mapSet h)

theorem keyedById_mapSet {m : List (String × VideoData)} {v : VideoData}
    (h : KeyedById m) : KeyedById (mapSet m v.id v) := by
  unfold mapSet
  split
  · intro p hp
    obtain ⟨q, hq, rfl⟩ := List.mem_map.mp hp
    by_cases hk : (q.1 == v.id) = true
    · simp [hk]
    · simp only [hk, if_neg, Bool.false_eq_true, not_false_eq_true, if_neg]
      exact h q hq
  · intro p hp
    rcases List.mem_append.mp hp with h1 | h1
    · exact h p h1
    · simp only [List.mem_singleton] at h1
      rw [h1]

theorem keyedById_buildMap (vids : List VideoData) (m : List (String × VideoData))
    (h : KeyedById m) : KeyedById (buildMap m vids) := by
  induction vids generalizing m with
  | nil => exact h
  | cons v vs ih => rw [buildMap_cons]; exact ih _ (keyedById_mapSet h)

theorem filterKey_buildMap (vids : List VideoData) (m : List (String × VideoData)) (k : String)
    (hnd : (m.map Prod.fst).Nodup) :
    filterKey (buildMap m vids) k =
      match lastWith vids k with
      | some w => [(k, w)]
      | none => filterKey m k := by
  induction vids generalizing m with
  | nil => rfl
  | cons v vs ih =>
    rw [buildMap_cons, ih _ (keysNodup_mapSet hnd)]
    by_cases hvk : (v.id == k) = true
    · have hk : v.id = k := by simpa using hvk
      cases hlast : lastWith vs k with
      | some w =>
        have hcons : lastWith (v :: vs) k = some w := by
          unfold lastWith at hlast ⊢
          rw [filter_cons_pos (fun x => x.id == k) v vs hvk]
          cases hf : vs.filter (fun x => x.id == k) with
          | nil => rw [hf] at hlast; cases hlast
          | cons a as => rw [hf] at hlast; rw [List.getLast?_cons_cons]; exact hlast
        rw [hcons]
      | none =>
        have hf : vs.filter (fun x => x.id == k) = [] := by
          unfold lastWith at hlast
          cases hf : vs.filter (fun x => x.id == k) with
          | nil => rfl
          | cons a as =>
            rw [hf] at hlast
            rcases List.getLast?_eq_none_iff.mp hlast with h
            cases h
        have hcons : lastWith (v :: vs) k = some v := by
          unfold lastWith
          rw [filter_cons_pos (fun x => x.id == k) v vs hvk, hf]
          rfl
        rw [hcons]
        show filterKey (mapSet m v.id v) k = [(k, v)]
        rw [← hk]
        exact filterKey_mapSet_self v hnd
    · have hk : v.id ≠ k := by simpa using hvk
      have hcons : lastWith (v :: vs) k = lastWith vs k := by
        unfold lastWith
        rw [filter_cons_neg (fun x => x.id == k) v vs (by simpa using hk)]
      rw [hcons]
      cases hlast : lastWith vs k with
      | some w => rfl
      | none =>
        show filterKey (mapSet m v.id v) k = filterKey m k
        exact filterKey_mapSet_other v fun he => hk he.symm

theorem filter_id_single {vids : List VideoData} {w : VideoData}
    (hnodup : (vids.map (·.id)).Nodup) (hw : w ∈ vids) :
    vids.filter (fun v => v.id == w.id) = [w] := by
  induction vids with
  | nil => cases hw
  | cons v vs ih =>
    rw [List.map_cons, List.nodup_cons] at hnodup
    rcases List.mem_cons.mp hw with rfl | hmem
    · rw [filter_cons_pos (fun x => x.id == w.id) w vs (by simp)]
      have hnil : vs.filter (fun x => x.id == w.id) = [] := by
        rw [List.filter_eq_nil_iff]
        intro x hx
        simp only [beq_iff_eq]
        intro he
        exact hnodup.1 (he ▸ List.mem_map_of_mem (·.id) hx)
      rw [hnil]
    · have hne : v.id ≠ w.id := fun he => hnodup.1 (he ▸ List.mem_map_of_mem (·.id) hmem)
      rw [filter_cons_neg (fun x => x.id == w.id) v vs (by simpa using hne)]
      exact ih hnodup.2 hmem

theorem lastWith_of_nodup {vids : List VideoData} {w : VideoData}
    (hnodup : (vids.map (·.id)).Nodup) (hw : w ∈ vids) : lastWith vids w.id = some w := by
  unfold lastWith
  rw [filter_id_single hnodup hw]
  rfl

theorem id_inj_of_nodup {vids : List VideoData} {u v : VideoData}
    (hnodup : (vids.map (·.id)).Nodup) (hu : u ∈ vids) (hv : v ∈ vids)
    (hid : u.id = v.id) : u = v := by
  have h1 := filter_id_single hnodup hv
  have h2 : u ∈ vids.filter (fun x => x.id == v.id) := List.mem_filter.mpr ⟨hu, by simp [hid]⟩
  rw [h1] at h2
  simpa using h2

theorem mapSet_id {m : List (String × VideoData)} {k : String} {v : VideoData}
    (hmem : (k, v) ∈ m) (huniq : ∀ p ∈ m, p.1 = k → p = (k, v)) :
    mapSet m k v = m := by
  unfold mapSet
  rw [if_pos (List.any_eq_true.mpr ⟨(k, v), hmem, by simp⟩)]
  apply map_eq_self_of
  intro p hp
  by_cases hk : (p.1 == k) = true
  · rw [if_pos hk]
    exact (huniq p hp (by simpa using hk)).symm
  · rw [if_neg hk]

theorem buildMap_stable {vids : List VideoData} {m : List (String × VideoData)}
    (h : ∀ v ∈ vids, mapSet m v.id v = m) : buildMap m vids = m := by
  induction vids with
  | nil => rfl
  | cons v vs ih =>
    rw [buildMap_cons, h v (by simp)]
    exact ih fun u hu => h u (by simp [hu])

theorem buildMap_disjoint (vids : List VideoData) (init : List (String × VideoData))
    (hdis : ∀ u ∈ vids, u.id ∉ init.map Prod.fst)
    (hnodup : (vids.map (·.id)).Nodup) :
    buildMap init vids = init ++ vids.map (fun v => (v.id, v)) := by
  induction vids generalizing init with
  | nil => simp [buildMap]
  | cons v vs ih =>
    rw [List.map_cons, List.nodup_cons] at hnodup
    rw [buildMap_cons,
      mapSet_of_absent fun ha => hdis v (by simp) ((any_key_iff _ _).mp ha),
      ih (init ++ [(v.id, v)]) ?_ hnodup.2]
    · simp
    · intro u hu
      rw [List.map_append, List.mem_append]
      rintro (h1 | h2)
      · exact hdis u (by simp [hu]) h1
      · simp only [List.map_cons, List.map_nil, List.mem_singleton] at h2
        exact hnodup.1 (h2 ▸ List.mem_map_of_mem (·.id) hu)

theorem foldl_likeCount (l : List VideoData) (a : Nat) :
    l.foldl (fun total video => total + video.likeCount) a = a + (l.map (·.likeCount)).sum := by
  induction l generalizing a with
  | nil => simp
  | cons v vs ih =>
    rw [List.foldl_cons, ih, List.map_cons, List.sum_cons]
    omega

theorem calculateTotalLikes_eq_sum (l : List VideoData) :
    calculateTotalLikes l = (l.map (·.likeCount)).sum := by
  rw [calculateTotalLikes, foldl_likeCount]
  omega

theorem mergeChannelData_videos (e n : ChannelData) (now : Nat) :
    (mergeChannelData e n now).videos = (buildMap (buildMap [] e.videos) n.videos).map Prod.snd :=
  rfl

theorem mergeChannelData_totalLikes (e n : ChannelData) (now : Nat) :
    (mergeChannelData e n now).totalLikes =
      calculateTotalLikes ((buildMap (buildMap [] e.videos) n.videos).map Prod.snd) :=
  rfl

theorem mergeChannelData_videoCount (e n : ChannelData) (now : Nat) :
    (mergeChannelData e n now).videoCount =
      ((buildMap (buildMap [] e.videos) n.videos).map Prod.snd).length :=
  rfl

theorem merge_keyed (e n : ChannelData) : KeyedById (buildMap (buildMap [] e.videos) n.videos) :=
  keyedById_buildMap _ _ (keyedById_buildMap _ _ fun p hp => absurd hp (List.not_mem_nil p))

theorem merge_keysNodup (e n : ChannelData) :
    ((buildMap (buildMap [] e.videos) n.videos).map Prod.fst).Nodup :=
  keysNodup_buildMap _ _ (keysNodup_buildMap _ _ (by simp))

theorem filter_videos_map_snd {m : List (String × VideoData)} (hkey : KeyedById m) (k : String) :
    (m.map Prod.snd).filter (fun x => x.id == k) = (filterKey m k).map Prod.snd := by
  unfold filterKey
  rw [List.filter_map]
  congr 1
  apply List.filter_congr
  intro p hp
  simp only [Function.comp]
  rw [hkey p hp]

theorem merge_videos_id_nodup (e n : ChannelData) (now : Nat) :
    ((mergeChannelData e n now).videos.map (·.id)).Nodup := by
  rw [mergeChannelData_videos, List.map_map]
  have heq : (buildMap (buildMap [] e.videos) n.videos).map ((·.id) ∘ Prod.snd) =
      (buildMap (buildMap [] e.videos) n.videos).map Prod.fst := by
    apply List.map_congr_left
    intro p hp
    simp only [Function.comp]
    exact (merge_keyed e n p hp).symm
  rw [heq]
  exact merge_keysNodup e n

/-! ## Claim C1 -/

/-- Claim C1: every ChannelAggregate the system produces — the one-video
aggregate of a successful `analyzeYouTubePage`, and the result of every
`mergeChannelData` call — has `totalLikes` equal to the sum of `likeCount`
over its videos, `videoCount` equal to the number of video entries, and at
most one video record per id (for `mergeChannelData` this holds for all
inputs, so in particular for all aggregates the system produced). -/
theorem producedAggregates_inv :
    (∀ page url now d, (analyzeYouTubePage page url now).data = some d → AggInv d)
    ∧ (∀ existingData newData now, AggInv (mergeChannelData existingData newData now)) := by
  constructor
  · intro page url now d h
    cases hvid : extractVideoId url with
    | none => simp [analyzeYouTubePage, hvid] at h
    | some videoId =>
      cases hchan : extractChannelId url with
      | error msg => simp [analyzeYouTubePage, hvid, hchan] at h
      | ok chan =>
        simp only [analyzeYouTubePage, hvid, hchan, Option.some.injEq] at h
        subst h
        exact ⟨by simp [AggInv], rfl, by simp [AggInv]⟩
  · intro e n now
    refine ⟨?_, rfl, merge_videos_id_nodup e n now⟩
    rw [mergeChannelData_totalLikes, calculateTotalLikes_eq_sum, mergeChannelData_videos]

/-- Witness for C1: a concrete successful analysis satisfies the invariants. -/
theorem producedAggregates_inv_witness :
    AggInv ⟨"v1", "Unknown Channel", 0, 1,
      [⟨"v1", "", "https://www.youtube.com/watch?v=v1", 0⟩], 0⟩ :=
  producedAggregates_inv.1 blankPage "https://www.youtube.com/watch?v=v1" 0 _ rfl

/-! ## Claim C2 -/

/-- Claim C2 counterexample: the structured-state strategies are not tried
before the DOM fallback and do not supply the locator's result.  On a page
whose initial-data blob carries the known-shape like count `"42"` — so the
first structured strategy succeeds with 42 — the locator still answers `0`
because the document has no DOM like signal. -/
theorem extractLikeCount_ignores_state_strategies :
    extractFromYtInitialData likeButtonBlob = some 42 ∧
    extractLikeCount ⟨blankDoc, some likeButtonBlob, none, none⟩ = 0 ∧
    extractLikeCount ⟨blankDoc, some likeButtonBlob, none, none⟩ ≠ 42 :=
  ⟨rfl, rfl, by decide⟩

/-- Claim C2 (amended): `extractLikeCount` returns exactly the DOM fallback's
result — the structured-state strategy functions exist in the source but are
never invoked, so the result never depends on the state blobs; only the DOM
methods run (in their order), with `0` when all fail. -/
theorem extractLikeCount_dom_only (document : Document)
    (b1 b2 b3 b1' b2' b3' : Option JsonVal) :
    extractLikeCount ⟨document, b1, b2, b3⟩ = extractLikeCountFromDOM document ∧
    extractLikeCount ⟨document, b1, b2, b3⟩ = extractLikeCount ⟨document, b1', b2', b3'⟩ :=
  ⟨rfl, rfl⟩

/-! ## Claim C3 -/

theorem rat_floor_eq_intFloor (q : Rat) : q.floor = ⌊q⌋ := rfl

/-- Claim C3: the numeric-text parser maps `"1.2K"` to 1200, `"3.4M"` to
3400000, `"500"` to 500, `""` to 0, `"garbage"` to 0 and `"2.5B"` to
2500000000. -/
theorem parseLikeCountText_spec_values :
    parseLikeCountText "1.2K" = 1200 ∧ parseLikeCountText "3.4M" = 3400000 ∧
    parseLikeCountText "500" = 500 ∧ parseLikeCountText "" = 0 ∧
    parseLikeCountText "garbage" = 0 ∧ parseLikeCountText "2.5B" = 2500000000 := by
  refine ⟨?_, ?_, rfl, rfl, rfl, ?_⟩
  · have e : parseLikeCountText "1.2K" =
        (jsRound ((((1 : Nat) : Rat) + ((2 : Nat) : Rat) / 10 ^ 1) * 1000)).toNat := rfl
    have hfl : jsRound ((((1 : Nat) : Rat) + ((2 : Nat) : Rat) / 10 ^ 1) * 1000) = 1200 := by
      rw [jsRound, rat_floor_eq_intFloor, Int.floor_eq_iff]
      norm_num
    rw [e, hfl]
    rfl
  · have e : parseLikeCountText "3.4M" =
        (jsRound ((((3 : Nat) : Rat) + ((4 : Nat) : Rat) / 10 ^ 1) * 1000000)).toNat := rfl
    have hfl : jsRound ((((3 : Nat) : Rat) + ((4 : Nat) : Rat) / 10 ^ 1) * 1000000) = 3400000 := by
      rw [jsRound, rat_floor_eq_intFloor, Int.floor_eq_iff]
      norm_num
    rw [e, hfl]
    rfl
  · have e : parseLikeCountText "2.5B" =
        (jsRound ((((2 : Nat) : Rat) + ((5 : Nat) : Rat) / 10 ^ 1) * 1000000000)).toNat := rfl
    have hfl : jsRound ((((2 : Nat) : Rat) + ((5 : Nat) : Rat) / 10 ^ 1) * 1000000000) =
        2500000000 := by
      rw [jsRound, rat_floor_eq_intFloor, Int.floor_eq_iff]
      norm_num
    rw [e, hfl]
    rfl

/-! ## Claim C4 -/

theorem searchEntries_like_str (key s : String) (rest : List (String × JsonVal))
    (hk : hasSub (toLowerC key.data) "like".data = true)
    (hp : 0 < parseLikeCountText s) :
    searchEntries ((key, JsonVal.str s) :: rest) = some (parseLikeCountText s) := by
  rw [searchEntries, hk]
  simp [hp]

theorem searchEntries_step_obj (key : String) (fields : List (String × JsonVal))
    (rest : List (String × JsonVal))
    (hk : hasSub (toLowerC key.data) "like".data = false) :
    searchEntries ((key, JsonVal.obj fields) :: rest) =
      match searchForLikeCount (JsonVal.obj fields) with
      | some n => some n
      | none => searchEntries rest := by
  rw [searchEntries, hk]
  simp
  exact fun s h => JsonVal.noConfusion h

theorem deepNest_is_obj (n : Nat) : ∃ fields, deepNest n = JsonVal.obj fields := by
  cases n with
  | zero => exact ⟨_, rfl⟩
  | succ k => exact ⟨_, rfl⟩

/-- Claim C4: `searchForLikeCount` follows object nesting to arbitrary depth
and finds the like entry at the bottom of a nest of any height — its
recursion has no depth cap, contrary to the claimed defence (and the source
carries no visited-set either, so a cyclic object graph would recurse
unboundedly; cyclic graphs have no counterpart among these finite values). -/
theorem searchForLikeCount_reaches_any_depth (n : Nat) :
    searchForLikeCount (deepNest n) = some 7 := by
  induction n with
  | zero =>
    show searchForLikeCount (JsonVal.obj [("like", JsonVal.str "7")]) = some 7
    rw [searchForLikeCount, searchEntries_like_str "like" "7" [] rfl (by decide)]
    rfl
  | succ n ih =>
    obtain ⟨fields, hdn⟩ := deepNest_is_obj n
    show searchForLikeCount (JsonVal.obj [("a", deepNest n)]) = some 7
    rw [hdn] at ih ⊢
    rw [searchForLikeCount, searchEntries_step_obj "a" fields [] rfl, ih]

/-! ## Claim C5 -/

/-- Claim C5: when `extractVideoId` is absent the analyzer fails with the
not-a-video-page reason, independently of the page (no extraction work
contributes to the outcome); when the url passes the video-id test but its
structural parse inside `extractChannelId` throws, the fault is caught and
surfaced as a failure message; and every non-success outcome carries no data
and some error message — no fault escapes. -/
theorem analyze_failure_isolation :
    (∀ page page' url now, extractVideoId url = none →
      analyzeYouTubePage page url now = ⟨false, none, some "Not a video page"⟩ ∧
      analyzeYouTubePage page url now = analyzeYouTubePage page' url now)
    ∧ (∀ page url now videoId msg, extractVideoId url = some videoId →
      extractChannelId url = .error msg →
      analyzeYouTubePage page url now = ⟨false, none, some msg⟩)
    ∧ (∀ page url now, (analyzeYouTubePage page url now).success = false →
      (analyzeYouTubePage page url now).data = none ∧
      (analyzeYouTubePage page url now).error ≠ none) := by
  refine ⟨fun page page' url now h => ?_, fun page url now videoId msg h1 h2 => ?_,
    fun page url now h => ?_⟩
  · constructor <;> simp [analyzeYouTubePage, h]
  · simp [analyzeYouTubePage, h1, h2]
  · cases hvid : extractVideoId url with
    | none => simp [analyzeYouTubePage, hvid]
    | some videoId =>
      cases hchan : extractChannelId url with
      | error msg => simp [analyzeYouTubePage, hvid, hchan]
      | ok chan => simp [analyzeYouTubePage, hvid, hchan] at h

/-- Witness for C5: a non-video url fails with the fixed reason, and a url
that carries a video id but cannot be parsed structurally fails with the
caught message. -/
theorem analyze_failure_isolation_witness :
    analyzeYouTubePage blankPage "https://example.com/" 0 =
      ⟨false, none, some "Not a video page"⟩ ∧
    analyzeYouTubePage blankPage "youtube.com/watch?v=abc" 0 =
      ⟨false, none, some "Invalid URL"⟩ :=
  ⟨(analyze_failure_isolation.1 blankPage blankPage "https://example.com/" 0 rfl).1,
   analyze_failure_isolation.2.1 blankPage "youtube.com/watch?v=abc" 0 "abc" "Invalid URL"
     rfl rfl⟩

/-! ## Claim C6 -/

/-- Claim C6: when the incoming aggregate carries a video with the same id as
an existing one but a different like count, the merge keeps exactly one
record under that id — the incoming one — the replaced record is gone, and
`totalLikes` is the sum over the merged set, so it reflects only the new
value, never old plus new. -/
theorem merge_lastWriteWins (existingData newData : ChannelData) (now : Nat)
    (v w : VideoData) (hnodup : (newData.videos.map (·.id)).Nodup)
    (hw : w ∈ newData.videos) (_hv : v ∈ existingData.videos)
    (hid : v.id = w.id) (hcount : v.likeCount ≠ w.likeCount) :
    (mergeChannelData existingData newData now).videos.filter (fun x => x.id == w.id) = [w]
    ∧ v ∉ (mergeChannelData existingData newData now).videos
    ∧ (mergeChannelData existingData newData now).totalLikes =
        ((mergeChannelData existingData newData now).videos.map (·.likeCount)).sum := by
  have hkeys1 : ((buildMap [] existingData.videos).map Prod.fst).Nodup :=
    keysNodup_buildMap _ _ (by simp)
  have hstep := filterKey_buildMap newData.videos (buildMap [] existingData.videos) w.id hkeys1
  rw [lastWith_of_nodup hnodup hw] at hstep
  have hflt : filterKey (buildMap (buildMap [] existingData.videos) newData.videos) w.id =
      [(w.id, w)] := hstep
  refine ⟨?_, ?_, ?_⟩
  · rw [mergeChannelData_videos, filter_videos_map_snd (merge_keyed existingData newData),
      hflt]
    rfl
  · intro hmem
    rw [mergeChannelData_videos] at hmem
    obtain ⟨p, hp, hpv⟩ := List.mem_map.mp hmem
    have hpk : (p.1 == w.id) = true := by
      have hk := merge_keyed existingData newData p hp
      simp [hk, hpv, hid]
    have hpf : p ∈ filterKey (buildMap (buildMap [] existingData.videos) newData.videos) w.id :=
      List.mem_filter.mpr ⟨hp, hpk⟩
    rw [hflt] at hpf
    simp only [List.mem_singleton] at hpf
    rw [hpf] at hpv
    exact hcount (congrArg VideoData.likeCount hpv.symm)
  · rw [mergeChannelData_totalLikes, calculateTotalLikes_eq_sum, mergeChannelData_videos]

/-- Witness for C6 on concrete aggregates: video `x` moves from 5 to 7 likes. -/
theorem merge_lastWriteWins_witness :
    (mergeChannelData exAgg incAgg 5).videos.filter
        (fun x => x.id == (⟨"x", "t2", "u2", 7⟩ : VideoData).id) = [⟨"x", "t2", "u2", 7⟩]
    ∧ (⟨"x", "t", "u", 5⟩ : VideoData) ∉ (mergeChannelData exAgg incAgg 5).videos
    ∧ (mergeChannelData exAgg incAgg 5).totalLikes =
        ((mergeChannelData exAgg incAgg 5).videos.map (·.likeCount)).sum :=
  merge_lastWriteWins exAgg incAgg 5 ⟨"x", "t", "u", 5⟩ ⟨"x", "t2", "u2", 7⟩
    (by decide) (by decide) (by decide) rfl (by decide)

/-! ## Claim C7 -/

/-- Claim C7: the merged `channelName` is the incoming one when non-empty and
otherwise the existing one — an unresolved incoming name never erases a known
name — and `analyzeYouTubePage` substitutes the sentinel `"Unknown Channel"`
when the channel-name locator finds nothing, before any merge can see it. -/
theorem channelName_preservation :
    (∀ existingData newData now,
      (mergeChannelData existingData newData now).channelName =
        if newData.channelName = "" then existingData.channelName else newData.channelName)
    ∧ (∀ page url now d, extractChannelName page = none →
      (analyzeYouTubePage page url now).data = some d → d.channelName = "Unknown Channel") := by
  constructor
  · intro e n now
    show (if n.channelName == "" then e.channelName else n.channelName) = _
    by_cases h : n.channelName = "" <;> simp [h]
  · intro page url now d hname h
    cases hvid : extractVideoId url with
    | none => simp [analyzeYouTubePage, hvid] at h
    | some videoId =>
      cases hchan : extractChannelId url with
      | error msg => simp [analyzeYouTubePage, hvid, hchan] at h
      | ok chan =>
        simp only [analyzeYouTubePage, hvid, hchan, hname, Option.some.injEq] at h
        subst h
        rfl

/-- Witness for C7: an incoming empty name keeps the stored one, and a
locator miss yields the sentinel. -/
theorem channelName_preservation_witness :
    (mergeChannelData exAgg incAgg 5).channelName = "Old Name" ∧
    (⟨"v1", "Unknown Channel", 0, 1,
        [⟨"v1", "", "https://www.youtube.com/watch?v=v1", 0⟩], 0⟩ : ChannelData).channelName =
      "Unknown Channel" :=
  ⟨by rw [channelName_preservation.1 exAgg incAgg 5]; rfl,
   channelName_preservation.2 blankPage "https://www.youtube.com/watch?v=v1" 0 _ rfl rfl⟩

/-! ## Claim C8 -/

/-- Claim C8: merging a well-formed aggregate with itself returns the same
video list, the same `totalLikes`, the same `videoCount`, and the unchanged
`channelId` — the merge is idempotent under duplicate input. -/
theorem merge_idempotent (a : ChannelData) (now : Nat)
    (hnodup : (a.videos.map (·.id)).Nodup)
    (hsum : a.totalLikes = (a.videos.map (·.likeCount)).sum)
    (hcount : a.videoCount = a.videos.length) :
    (mergeChannelData a a now).videos = a.videos ∧
    (mergeChannelData a a now).totalLikes = a.totalLikes ∧
    (mergeChannelData a a now).videoCount = a.videoCount ∧
    (mergeChannelData a a now).channelId = a.channelId := by
  have hfresh : buildMap [] a.videos = a.videos.map (fun v => (v.id, v)) := by
    simpa using buildMap_disjoint a.videos [] (by simp) hnodup
  have hstable : buildMap (a.videos.map fun v => (v.id, v)) a.videos =
      a.videos.map (fun v => (v.id, v)) := by
    apply buildMap_stable
    intro v hv
    apply mapSet_id (show (v.id, v) ∈ _ from List.mem_map_of_mem (fun u => (u.id, u)) hv)
    intro p hp hpk
    obtain ⟨u, hu, rfl⟩ := List.mem_map.mp hp
    have : u = v := id_inj_of_nodup hnodup hu hv (by simpa using hpk)
    rw [this]
  have hm : (buildMap (buildMap [] a.videos) a.videos).map Prod.snd = a.videos := by
    rw [hfresh, hstable, List.map_map]
    exact map_eq_self_of fun u _ => rfl
  refine ⟨?_, ?_, ?_, rfl⟩
  · rw [mergeChannelData_videos, hm]
  · rw [mergeChannelData_totalLikes, hm, calculateTotalLikes_eq_sum, ← hsum]
  · rw [mergeChannelData_videoCount, hm, ← hcount]

/-- Witness for C8 on a concrete two-video aggregate. -/
theorem merge_idempotent_witness :
    (mergeChannelData selfAgg selfAgg 9).videos = selfAgg.videos ∧
    (mergeChannelData selfAgg selfAgg 9).totalLikes = selfAgg.totalLikes ∧
    (mergeChannelData selfAgg selfAgg 9).videoCount = selfAgg.videoCount ∧
    (mergeChannelData selfAgg selfAgg 9).channelId = selfAgg.channelId :=
  merge_idempotent selfAgg 9 (by decide) (by decide) (by decide)

/-! ## Claim C10 -/

/-- Claim C10: for all input aggregates — even ones whose own video lists
contain several records under one id — the merged video list has at most one
record per id: the id-keyed map establishes uniqueness unconditionally. -/
theorem merge_establishes_uniqueness (existingData newData : ChannelData) (now : Nat) :
    ((mergeChannelData existingData newData now).videos.map (·.id)).Nodup :=
  merge_videos_id_nodup existingData newData now

end SumLikeIt
